import Mathlib

/-!
Verification of the Scoring and Challenge Lifecycle Engine of the
Life-Improver repository.

The backend routes (server/routes/tasks.js, server/routes/challenges.js) and
the SQL migration (supabase/migrations/20250713144051_misty_cottage.sql) are
embedded shallowly: each HTTP handler becomes a function from an abstract
storage state to a new state (or an error), and the storage layer is modelled
as lists of rows with the unique-key upsert semantics declared by the
migration constraints.  Decimal columns are modelled as rationals, dates as
natural-number day indices (calendar dates get their own model for the
end-date computation of challenge creation).
-/

namespace LifeImprover

/-- Challenge lifecycle status.  The five values used across the repository:
the migration CHECK constraint lists pending, active, completed, cancelled,
while the frontend type declarations additionally list rejected. -/
inductive Status where
  | pending
  | active
  | completed
  | cancelled
  | rejected
deriving DecidableEq, Repr

/-- Row of the tasks table: id, user_id, duration_hours decimal(4,2),
points integer, is_active boolean. -/
structure Task where
  id : Nat
  userId : Nat
  durationHours : ℚ
  points : ℚ
  isActive : Bool
deriving DecidableEq, Repr

/-- Row of the task_completions table, with UNIQUE(user_id, task_id,
completion_date). -/
structure Completion where
  userId : Nat
  taskId : Nat
  date : Nat
  actualDurationHours : ℚ
  earnedPoints : ℚ
deriving DecidableEq, Repr

/-- Row of the daily_scores table, with UNIQUE(user_id, score_date). -/
structure DailyScore where
  userId : Nat
  date : Nat
  totalPossiblePoints : ℚ
  earnedPoints : ℚ
  percentageScore : ℚ
deriving DecidableEq, Repr

/-- Row of the challenges table. -/
structure Challenge where
  id : Nat
  creatorId : Nat
  challengerId : Nat
  startDate : Nat
  endDate : Nat
  status : Status
  winnerId : Option Nat
deriving DecidableEq, Repr

/-- Row of the profiles table (the stats part: total_wins, total_losses). -/
structure Profile where
  id : Nat
  totalWins : Nat
  totalLosses : Nat
deriving DecidableEq, Repr

/-- The storage state seen by the engine: the five tables of the migration
that the scoring and challenge logic touches. -/
structure St where
  tasks : List Task
  completions : List Completion
  dailyScores : List DailyScore
  challenges : List Challenge
  profiles : List Profile
deriving DecidableEq, Repr

/-- Errors surfaced by the handlers (HTTP 4xx responses). -/
inductive Err where
  | notFound
  | checkViolation
deriving DecidableEq, Repr

/-- Unique-key upsert as provided by the storage layer: if a row matching the
key predicate exists, every matching row is replaced in place, otherwise the
new row is appended. -/
def upsertBy {α : Type} (p : α → Bool) (a : α) (l : List α) : List α :=
  if l.any p then l.map (fun x => if p x then a else x) else l ++ [a]

theorem any_eq_false_forall {α : Type} {p : α → Bool} {l : List α}
    (h : l.any p = false) : ∀ x ∈ l, p x = false := by
  intro x hx
  cases hp : p x with
  | false => rfl
  | true =>
    have : l.any p = true := List.any_eq_true.mpr ⟨x, hx, hp⟩
    rw [this] at h
    exact absurd h (by simp)

theorem map_replace_eq_self {α : Type} (p : α → Bool) (a : α) {l : List α}
    (h : ∀ x ∈ l, p x = false) :
    l.map (fun x => if p x then a else x) = l := by
  have h2 : l.map (fun x => if p x then a else x) = l.map id :=
    List.map_congr_left (fun b hb => by simp [h b hb])
  simpa using h2

theorem find?_map_replace {α : Type} (p : α → Bool) (a : α) (ha : p a = true) :
    ∀ l : List α, l.any p = true →
      (l.map (fun x => if p x then a else x)).find? p = some a := by
  intro l h
  induction l with
  | nil => simp at h
  | cons x xs ih =>
    cases hx : p x with
    | true =>
      have hfx : (if p x = true then a else x) = a := by simp [hx]
      rw [List.map_cons, hfx]
      exact List.find?_cons_of_pos _ ha
    | false =>
      have hxs : xs.any p = true := by simpa [List.any_cons, hx] using h
      have hfx : (if p x = true then a else x) = x := by simp [hx]
      rw [List.map_cons, hfx, List.find?_cons_of_neg _ (by simp [hx])]
      exact ih hxs

theorem find?_append_of_all_false {α : Type} (p : α → Bool) (a : α)
    (ha : p a = true) :
    ∀ l : List α, (∀ x ∈ l, p x = false) → (l ++ [a]).find? p = some a := by
  intro l h
  induction l with
  | nil => simpa using List.find?_cons_of_pos ([] : List α) ha
  | cons x xs ih =>
    rw [List.cons_append, List.find?_cons_of_neg _ (by simp [h x (by simp)])]
    exact ih (fun y hy => h y (by simp [hy]))

/-- After an upsert, looking the key up returns the upserted row. -/
theorem find?_upsertBy {α : Type} (p : α → Bool) (a : α) (l : List α)
    (ha : p a = true) : (upsertBy p a l).find? p = some a := by
  unfold upsertBy
  cases h : l.any p with
  | true =>
    rw [if_pos rfl]
    exact find?_map_replace p a ha l h
  | false =>
    rw [if_neg (by simp)]
    exact find?_append_of_all_false p a ha l (any_eq_false_forall h)

/-- Upserting the same row twice is the same as upserting it once. -/
theorem upsertBy_idem {α : Type} (p : α → Bool) (a : α) (l : List α)
    (ha : p a = true) : upsertBy p a (upsertBy p a l) = upsertBy p a l := by
  unfold upsertBy
  cases h : l.any p with
  | true =>
    rw [if_pos rfl]
    obtain ⟨x, hx, hpx⟩ := List.any_eq_true.mp h
    have h2 : (l.map (fun y => if p y then a else y)).any p = true := by
      apply List.any_eq_true.mpr
      refine ⟨a, ?_, ha⟩
      have hm := List.mem_map_of_mem (fun y => if p y = true then a else y) hx
      have hfx : (fun y => if p y = true then a else y) x = a := by simp [hpx]
      rw [hfx] at hm
      exact hm
    rw [if_pos h2, List.map_map]
    apply List.map_congr_left
    intro b _
    by_cases hb : p b = true
    · simp [Function.comp, hb, ha]
    · simp [Function.comp, hb]
  | false =>
    rw [if_neg (show ¬(false = true) by simp)]
    have h2 : (l ++ [a]).any p = true := List.any_eq_true.mpr ⟨a, by simp, ha⟩
    rw [if_pos h2, List.map_append,
      map_replace_eq_self p a (any_eq_false_forall h)]
    simp [ha]

theorem filter_map_replace {α : Type} (p q : α → Bool) (a : α)
    (hqa : q a = false) (hpq : ∀ x, p x = true → q x = false) :
    ∀ l : List α, (l.map (fun x => if p x then a else x)).filter q
      = l.filter q := by
  intro l
  induction l with
  | nil => simp
  | cons x xs ih =>
    by_cases hx : p x = true
    · have hfx : (if p x = true then a else x) = a := by simp [hx]
      rw [List.map_cons, hfx, List.filter_cons, List.filter_cons]
      simp only [hqa, hpq x hx]
      simpa using ih
    · have hx' : p x = false := by
        cases hp : p x
        · rfl
        · exact absurd hp hx
      have hfx : (if p x = true then a else x) = x := by simp [hx']
      rw [List.map_cons, hfx, List.filter_cons, List.filter_cons]
      cases hqx : q x <;> simp [hqx, ih]

/-- Rows outside a key predicate q are untouched by an upsert whose key rows
all fall outside q as well. -/
theorem filter_upsertBy {α : Type} (p q : α → Bool) (a : α) (l : List α)
    (hqa : q a = false) (hpq : ∀ x, p x = true → q x = false) :
    (upsertBy p a l).filter q = l.filter q := by
  unfold upsertBy
  cases h : l.any p with
  | true =>
    rw [if_pos rfl]
    exact filter_map_replace p q a hqa hpq l
  | false =>
    rw [if_neg (by simp)]
    simp [List.filter_append, hqa]

/-- Earned points for a completion, from POST /completions in
server/routes/tasks.js lines 147-159: the proportional raw points when the
target duration is positive (otherwise 0), clamped by Math.min at the task
point value. -/
def earnedPointsCalc (t : Task) (actual : ℚ) : ℚ :=
  min (if 0 < t.durationHours then actual / t.durationHours * t.points else 0)
    t.points

/-- The task select with .single() in POST /completions: the row whose id and
user_id match; any other cardinality is a storage error surfaced as 400. -/
def taskLookup (s : St) (userId taskId : Nat) : Except Err Task :=
  match s.tasks.filter (fun t => t.id == taskId && t.userId == userId) with
  | [t] => Except.ok t
  | _ => Except.error Err.notFound

/-- The key of the UNIQUE(user_id, task_id, completion_date) constraint. -/
def completionKey (userId taskId date : Nat) (c : Completion) : Bool :=
  c.userId == userId && c.taskId == taskId && c.date == date

/-- The key of the UNIQUE(user_id, score_date) constraint. -/
def scoreKey (userId date : Nat) (d : DailyScore) : Bool :=
  d.userId == userId && d.date == date

/-- calculateDailyScore from server/routes/tasks.js lines 179-212: total
possible points are summed over the currently active tasks of the user,
earned points over all completions of the user for the date, and the
percentage is earned / total * 100 when the total is positive, else 0; the
result is upserted into daily_scores. -/
def calculateDailyScore (s : St) (userId date : Nat) : St :=
  let activeTasks := s.tasks.filter (fun t => t.userId == userId && t.isActive)
  let dayCompletions :=
    s.completions.filter (fun c => c.userId == userId && c.date == date)
  let totalPossiblePoints : ℚ := (activeTasks.map Task.points).sum
  let earnedPoints : ℚ := (dayCompletions.map Completion.earnedPoints).sum
  let percentageScore : ℚ :=
    if 0 < totalPossiblePoints then earnedPoints / totalPossiblePoints * 100
    else 0
  let row : DailyScore :=
    ⟨userId, date, totalPossiblePoints, earnedPoints, percentageScore⟩
  { s with dailyScores := upsertBy (scoreKey userId date) row s.dailyScores }

/-- POST /completions from server/routes/tasks.js lines 130-176: look the task
up by id and caller, compute the clamped earned points, upsert the completion
for (user, task, today), then recompute the daily score for (user, today).
The route reads the current date from the server clock; the request body
carries only task_id and actual_duration_hours. -/
def recordCompletion (s : St) (userId taskId today : Nat)
    (actualDurationHours : ℚ) : Except Err St :=
  match taskLookup s userId taskId with
  | Except.error e => Except.error e
  | Except.ok task =>
    let row : Completion :=
      ⟨userId, taskId, today, actualDurationHours,
        earnedPointsCalc task actualDurationHours⟩
    let newCompletions :=
      upsertBy (completionKey userId taskId today) row s.completions
    let s1 : St := { s with completions := newCompletions }
    Except.ok (calculateDailyScore s1 userId today)

/-- DELETE /:id from server/routes/tasks.js lines 81-100: soft delete, setting
is_active to false on the matching task rows of the caller. -/
def deactivateTask (s : St) (userId taskId : Nat) : St :=
  { s with tasks := s.tasks.map (fun t =>
      if t.id == taskId && t.userId == userId then { t with isActive := false }
      else t) }

/-- The completion row stored for a given key. -/
def findCompletion (s : St) (userId taskId date : Nat) : Option Completion :=
  s.completions.find? (completionKey userId taskId date)

@[simp] theorem calculateDailyScore_completions (s : St) (userId date : Nat) :
    (calculateDailyScore s userId date).completions = s.completions := rfl

@[simp] theorem calculateDailyScore_tasks (s : St) (userId date : Nat) :
    (calculateDailyScore s userId date).tasks = s.tasks := rfl

@[simp] theorem calculateDailyScore_challenges (s : St) (userId date : Nat) :
    (calculateDailyScore s userId date).challenges = s.challenges := rfl

@[simp] theorem calculateDailyScore_profiles (s : St) (userId date : Nat) :
    (calculateDailyScore s userId date).profiles = s.profiles := rfl

theorem earnedPointsCalc_nonneg (t : Task) (actual : ℚ)
    (ha : 0 ≤ actual) (hp : 0 ≤ t.points) : 0 ≤ earnedPointsCalc t actual := by
  unfold earnedPointsCalc
  apply le_min _ hp
  by_cases hd : 0 < t.durationHours
  · rw [if_pos hd]
    exact mul_nonneg (div_nonneg ha hd.le) hp
  · simp [if_neg hd]

theorem earnedPointsCalc_le (t : Task) (actual : ℚ) :
    earnedPointsCalc t actual ≤ t.points := min_le_right _ _

/-- C1: the completion-recording operation stores
earnedPoints = min((actual / target) * points, points) for a positive target
and 0 for a non-positive target, so 0 <= earnedPoints <= points whenever the
actual duration is non-negative (the point value is a positive integer per
the data model). -/
theorem recordCompletion_earnedPoints_clamped
    (s s' : St) (userId taskId today : Nat) (h : ℚ) (t : Task)
    (hlookup : taskLookup s userId taskId = Except.ok t)
    (hrun : recordCompletion s userId taskId today h = Except.ok s')
    (hh : 0 ≤ h) (hp : 0 ≤ t.points) :
    findCompletion s' userId taskId today
        = some ⟨userId, taskId, today, h, earnedPointsCalc t h⟩
      ∧ (0 < t.durationHours →
          earnedPointsCalc t h = min (h / t.durationHours * t.points) t.points)
      ∧ (t.durationHours ≤ 0 → earnedPointsCalc t h = 0)
      ∧ 0 ≤ earnedPointsCalc t h ∧ earnedPointsCalc t h ≤ t.points := by
  have h2 := hrun
  unfold recordCompletion at h2
  rw [hlookup] at h2
  simp only [Except.ok.injEq] at h2
  refine ⟨?_, ?_, ?_, earnedPointsCalc_nonneg t h hh hp,
    earnedPointsCalc_le t h⟩
  · rw [← h2]
    unfold findCompletion
    rw [calculateDailyScore_completions]
    exact find?_upsertBy _ _ _ (by simp [completionKey])
  · intro hd
    unfold earnedPointsCalc
    rw [if_pos hd]
  · intro hd
    unfold earnedPointsCalc
    rw [if_neg (not_lt.mpr hd)]
    exact min_eq_left hp

/-- Concrete state exercising the completion recorder: one task owned by
user 1 with a 2 hour target worth 20 points (the Gym example of the spec). -/
def demoTask : Task := ⟨1, 1, 2, 20, true⟩

/-- Initial demo state: just the demo task, no completions or scores. -/
def demoTaskState : St := ⟨[demoTask], [], [], [], []⟩

/-- The state after recording 3 hours against the demo task on day 0: the
stored earned points are clamped at 20 even though 3/2 * 20 = 30. -/
def demoTaskStateAfter : St :=
  ⟨[demoTask], [⟨1, 1, 0, 3, 20⟩], [⟨1, 0, 20, 20, 100⟩], [], []⟩

/-- Witness for C1 at the spec example: target 2h worth 20 points, 3 hours
recorded, earned points capped at 20 rather than 30. -/
theorem recordCompletion_earnedPoints_clamped_witness :
    findCompletion demoTaskStateAfter 1 1 0
        = some ⟨1, 1, 0, (3:ℚ), earnedPointsCalc demoTask 3⟩
      ∧ (0 < demoTask.durationHours →
          earnedPointsCalc demoTask 3
            = min ((3:ℚ) / demoTask.durationHours * demoTask.points)
                demoTask.points)
      ∧ (demoTask.durationHours ≤ 0 → earnedPointsCalc demoTask 3 = 0)
      ∧ 0 ≤ earnedPointsCalc demoTask 3
      ∧ earnedPointsCalc demoTask 3 ≤ demoTask.points :=
  recordCompletion_earnedPoints_clamped demoTaskState demoTaskStateAfter 1 1 0 3
    demoTask (by norm_num [taskLookup, demoTaskState, demoTask])
    (by norm_num [recordCompletion, taskLookup, calculateDailyScore, upsertBy,
      earnedPointsCalc, completionKey, scoreKey, demoTaskState,
      demoTaskStateAfter, demoTask])
    (by norm_num) (by norm_num [demoTask])

/-- Status values permitted by the CHECK constraint on challenges.status in
migration 20250713144051_misty_cottage.sql line 68: pending, active,
completed, cancelled.  The value rejected is not in the list. -/
def statusAllowed : Status → Bool
  | Status.rejected => false
  | _ => true

/-- PUT /:id/respond from server/routes/challenges.js lines 94-117: the status
written is active on accept and cancelled on decline; the update matches on
challenge id and challenger_id only, with no check of the current status, and
.single() surfaces an error (leaving the state unchanged) when no row
matches. -/
def respond (s : St) (challengerId chId : Nat) (accept : Bool) :
    Except Err St :=
  let status := if accept then Status.active else Status.cancelled
  if s.challenges.any (fun c => c.id == chId && c.challengerId == challengerId)
  then
    Except.ok { s with challenges := s.challenges.map (fun c =>
      if c.id == chId && c.challengerId == challengerId then
        { c with status := status }
      else c) }
  else Except.error Err.notFound

/-- PUT /:id/respond from the second challenges route of the repository
(src/unnamed/part_000 lines 162-235): identical update but the declined
status is rejected; since the CHECK constraint of the migration does not
allow rejected, that write is refused by the database and the handler
returns the storage error with the state unchanged. -/
def respondV2 (s : St) (challengerId chId : Nat) (accept : Bool) :
    Except Err St :=
  let status := if accept then Status.active else Status.rejected
  if statusAllowed status then
    if s.challenges.any
        (fun c => c.id == chId && c.challengerId == challengerId) then
      Except.ok { s with challenges := s.challenges.map (fun c =>
        if c.id == chId && c.challengerId == challengerId then
          { c with status := status }
        else c) }
    else Except.error Err.notFound
  else Except.error Err.checkViolation

/-- Daily percentage scores of a user between two day indices inclusive, as
selected by POST /complete in server/routes/challenges.js lines 172-184. -/
def scoresInRange (s : St) (userId a b : Nat) : List ℚ :=
  (s.dailyScores.filter (fun d =>
      d.userId == userId && decide (a ≤ d.date) && decide (d.date ≤ b))).map
    DailyScore.percentageScore

/-- Average as computed in POST /complete lines 186-192: sum / length when
the list is non-empty, 0 otherwise. -/
def avgScore (l : List ℚ) : ℚ :=
  if 0 < l.length then l.sum / (l.length : ℚ) else 0

/-- Winner determination of POST /complete lines 194-199: strictly greater
average wins, equality leaves the winner null. -/
def challengeWinner (s : St) (c : Challenge) : Option Nat :=
  let creatorAvg := avgScore (scoresInRange s c.creatorId c.startDate c.endDate)
  let challengerAvg :=
    avgScore (scoresInRange s c.challengerId c.startDate c.endDate)
  if creatorAvg > challengerAvg then some c.creatorId
  else if challengerAvg > creatorAvg then some c.challengerId
  else none

/-- Modelled from the spec: the increment_wins RPC called at
server/routes/challenges.js line 214 is not among the migrations of the
repository (only its callers appear); per section 4.4 of the spec it
increments the win counter of the named user, as the analogous SQL function
update_challenge_winner does inline. -/
def incrementWins (l : List Profile) (userId : Nat) : List Profile :=
  l.map (fun p =>
    if p.id == userId then { p with totalWins := p.totalWins + 1 } else p)

/-- Modelled from the spec: the increment_losses RPC called at
server/routes/challenges.js line 215, incrementing the loss counter of the
named user. -/
def incrementLosses (l : List Profile) (userId : Nat) : List Profile :=
  l.map (fun p =>
    if p.id == userId then { p with totalLosses := p.totalLosses + 1 } else p)

/-- Body of the per-challenge loop of POST /complete lines 170-217: compute
the winner from the daily scores over the challenge window, mark the
challenge completed with that winner, and on a non-null winner increment the
win counter of the winner and the loss counter of the other participant. -/
def applyChallenge (s : St) (c : Challenge) : St :=
  let w := challengeWinner s c
  let s1 : St := { s with challenges := s.challenges.map (fun x =>
      if x.id == c.id then { x with status := Status.completed, winnerId := w }
      else x) }
  match w with
  | none => s1
  | some wid =>
    let lid := if wid == c.creatorId then c.challengerId else c.creatorId
    { s1 with profiles := incrementLosses (incrementWins s1.profiles wid) lid }

/-- The snapshot selected by POST /complete lines 160-164: challenges with
status active whose end_date is on or before today. -/
def expiredActive (s : St) (today : Nat) : List Challenge :=
  s.challenges.filter
    (fun c => c.status == Status.active && decide (c.endDate ≤ today))

/-- POST /complete from server/routes/challenges.js lines 155-224: select the
expired active challenges, then resolve each in turn. -/
def sweep (s : St) (today : Nat) : St :=
  (expiredActive s today).foldl applyChallenge s

/-- A challenge already resolved: completed with winner user 1. -/
def completedChallenge : Challenge := ⟨1, 1, 2, 0, 5, Status.completed, some 1⟩

/-- State holding the resolved challenge and the two participant profiles
with the win and loss already counted. -/
def completedChallengeState : St :=
  ⟨[], [], [], [completedChallenge], [⟨1, 1, 0⟩, ⟨2, 0, 1⟩]⟩

/-- C5 (refuted by the code): both respond handlers match only on challenge
id and challenger id, never on the current status, so responding to a
completed challenge rewrites its status: accept turns it back to active
(keeping the recorded winner) instead of failing with InvalidState. -/
theorem respond_on_completed_challenge_reactivates :
    respond completedChallengeState 2 1 true
        = Except.ok { completedChallengeState with
            challenges := [⟨1, 1, 2, 0, 5, Status.active, some 1⟩] }
      ∧ respondV2 completedChallengeState 2 1 true
        = Except.ok { completedChallengeState with
            challenges := [⟨1, 1, 2, 0, 5, Status.active, some 1⟩] } :=
  ⟨rfl, rfl⟩

/-- A pending challenge from creator 1 to challenger 2. -/
def pendingChallenge : Challenge := ⟨1, 1, 2, 0, 5, Status.pending, none⟩

/-- State holding just the pending challenge. -/
def pendingChallengeState : St := ⟨[], [], [], [pendingChallenge], []⟩

/-- C6 (refuted by the code): the mounted respond handler writes cancelled,
not rejected, when the challenger declines; the alternate handler writes
rejected but that value violates the CHECK constraint of the migration, so
the write is refused.  Accepting does set the status to active. -/
theorem respond_decline_writes_cancelled :
    respond pendingChallengeState 2 1 false
        = Except.ok { pendingChallengeState with
            challenges := [⟨1, 1, 2, 0, 5, Status.cancelled, none⟩] }
      ∧ respond pendingChallengeState 2 1 true
        = Except.ok { pendingChallengeState with
            challenges := [⟨1, 1, 2, 0, 5, Status.active, none⟩] }
      ∧ respondV2 pendingChallengeState 2 1 false
        = Except.error Err.checkViolation
      ∧ Status.cancelled ≠ Status.rejected :=
  ⟨rfl, rfl, rfl, by decide⟩

theorem taskLookup_congr {s1 s2 : St} (h : s1.tasks = s2.tasks)
    (userId taskId : Nat) :
    taskLookup s1 userId taskId = taskLookup s2 userId taskId := by
  unfold taskLookup
  rw [h]

/-- Recomputing a day that was just recomputed writes the identical row
again. -/
theorem calculateDailyScore_idem (s : St) (userId date : Nat) :
    calculateDailyScore (calculateDailyScore s userId date) userId date
      = calculateDailyScore s userId date := by
  unfold calculateDailyScore
  simp only [St.mk.injEq, and_true, true_and]
  exact upsertBy_idem _ _ _ (by simp [scoreKey])

/-- C7: recording the same completion twice in succession leaves the state
of the first call unchanged: the upsert replaces the completion row with an
identical one and the daily score recompute writes the identical row. -/
theorem recordCompletion_idempotent (s s1 : St) (userId taskId today : Nat)
    (h : ℚ) (hrun : recordCompletion s userId taskId today h = Except.ok s1) :
    recordCompletion s1 userId taskId today h = Except.ok s1 := by
  unfold recordCompletion at hrun ⊢
  cases hl : taskLookup s userId taskId with
  | error e =>
    rw [hl] at hrun
    exact absurd hrun (by simp)
  | ok t =>
    rw [hl] at hrun
    simp only [Except.ok.injEq] at hrun
    have htasks : s1.tasks = s.tasks := by
      rw [← hrun, calculateDailyScore_tasks]
    rw [taskLookup_congr htasks userId taskId, hl]
    simp only [Except.ok.injEq]
    have hcomp : upsertBy (completionKey userId taskId today)
        ⟨userId, taskId, today, h, earnedPointsCalc t h⟩ s1.completions
        = s1.completions := by
      rw [← hrun, calculateDailyScore_completions]
      exact upsertBy_idem _ _ _ (by simp [completionKey])
    rw [hcomp]
    show calculateDailyScore s1 userId today = s1
    rw [← hrun]
    exact calculateDailyScore_idem _ userId today

/-- Witness for C7 on the demo task state. -/
theorem recordCompletion_idempotent_witness :
    recordCompletion demoTaskStateAfter 1 1 0 3
      = Except.ok demoTaskStateAfter :=
  recordCompletion_idempotent demoTaskState demoTaskStateAfter 1 1 0 3
    (by norm_num [recordCompletion, taskLookup, calculateDailyScore, upsertBy,
      earnedPointsCalc, completionKey, scoreKey, demoTaskState,
      demoTaskStateAfter, demoTask])

/-- The daily_scores table after a recompute is an upsert of a row keyed to
the recomputed user and date. -/
theorem calculateDailyScore_dailyScores (s : St) (userId date : Nat) :
    ∃ row : DailyScore, row.userId = userId ∧ row.date = date ∧
      (calculateDailyScore s userId date).dailyScores
        = upsertBy (scoreKey userId date) row s.dailyScores :=
  ⟨_, rfl, rfl, rfl⟩

/-- C10: the public completion operation carries no date: the route keys the
completion and the recompute to the server clock, so rows of any other date
are untouched by the call. -/
theorem recordCompletion_writes_only_today
    (s s' : St) (userId taskId today : Nat) (h : ℚ) (d : Nat)
    (hrun : recordCompletion s userId taskId today h = Except.ok s')
    (hd : d ≠ today) :
    s'.completions.filter (fun c => c.date == d)
        = s.completions.filter (fun c => c.date == d)
      ∧ s'.dailyScores.filter (fun x => x.date == d)
        = s.dailyScores.filter (fun x => x.date == d) := by
  unfold recordCompletion at hrun
  cases hl : taskLookup s userId taskId with
  | error e =>
    rw [hl] at hrun
    exact absurd hrun (by simp)
  | ok t =>
    rw [hl] at hrun
    simp only [Except.ok.injEq] at hrun
    constructor
    · rw [← hrun, calculateDailyScore_completions]
      apply filter_upsertBy
      · simp only [beq_eq_false_iff_ne]
        exact Ne.symm hd
      · intro x hx
        simp only [completionKey, Bool.and_eq_true, beq_iff_eq] at hx
        simp only [beq_eq_false_iff_ne, hx.2]
        exact Ne.symm hd
    · obtain ⟨row, hru, hrd, hup⟩ :=
        calculateDailyScore_dailyScores { s with completions := upsertBy (completionKey userId taskId today) ⟨userId, taskId, today, h, earnedPointsCalc t h⟩ s.completions } userId today
      rw [← hrun, hup]
      apply filter_upsertBy
      · simp only [beq_eq_false_iff_ne, hrd]
        exact Ne.symm hd
      · intro x hx
        simp only [scoreKey, Bool.and_eq_true, beq_iff_eq] at hx
        simp only [beq_eq_false_iff_ne, hx.2]
        exact Ne.symm hd

/-- Witness for C10: recording on day 0 leaves day 1 rows unchanged. -/
theorem recordCompletion_writes_only_today_witness :
    demoTaskStateAfter.completions.filter (fun c => c.date == 1)
        = demoTaskState.completions.filter (fun c => c.date == 1)
      ∧ demoTaskStateAfter.dailyScores.filter (fun x => x.date == 1)
        = demoTaskState.dailyScores.filter (fun x => x.date == 1) :=
  recordCompletion_writes_only_today demoTaskState demoTaskStateAfter 1 1 0 3 1
    (by norm_num [recordCompletion, taskLookup, calculateDailyScore, upsertBy,
      earnedPointsCalc, completionKey, scoreKey, demoTaskState,
      demoTaskStateAfter, demoTask])
    (by norm_num)

/-- calculateDailyScore as wrapped by the code: the body sits in a try/catch
whose catch only logs (server/routes/tasks.js lines 209-211) and the
supabase results inside are never error-checked, so a failing daily_scores
write leaves the table unchanged and the function returns normally.  The
flag injects such a storage failure. -/
def calculateDailyScoreF (recomputeFails : Bool) (s : St) (userId date : Nat) :
    St :=
  if recomputeFails then s else calculateDailyScore s userId date

/-- POST /completions with the fallibility of the recompute made explicit:
the route awaits calculateDailyScore, which swallows its own errors, and
then responds with the completion and status 200 regardless (lines
169-171). -/
def recordCompletionF (recomputeFails : Bool) (s : St)
    (userId taskId today : Nat) (actualDurationHours : ℚ) : Except Err St :=
  match taskLookup s userId taskId with
  | Except.error e => Except.error e
  | Except.ok task =>
    let row : Completion :=
      ⟨userId, taskId, today, actualDurationHours,
        earnedPointsCalc task actualDurationHours⟩
    let newCompletions :=
      upsertBy (completionKey userId taskId today) row s.completions
    let s1 : St := { s with completions := newCompletions }
    Except.ok (calculateDailyScoreF recomputeFails s1 userId today)

/-- A one-task state whose daily score row is the zero-progress row. -/
def staleState : St :=
  ⟨[⟨1, 1, 1, 10, true⟩], [], [⟨1, 0, 10, 0, 0⟩], [], []⟩

/-- The state after the completion upsert when the recompute write fails:
the completion is applied but the daily score row still shows 0. -/
def staleStateAfter : St :=
  ⟨[⟨1, 1, 1, 10, true⟩], [⟨1, 1, 0, 1, 10⟩], [⟨1, 0, 10, 0, 0⟩], [], []⟩

/-- C9 (refuted by the code): when the daily-score write fails after the
completion upsert, the operation still reports success, the completion stays
applied, and the stored daily score differs from what a successful recompute
of the same state produces - the partial failure is silent. -/
theorem recompute_failure_reports_success :
    recordCompletionF true staleState 1 1 0 1 = Except.ok staleStateAfter
      ∧ staleStateAfter.dailyScores = staleState.dailyScores
      ∧ (calculateDailyScore staleStateAfter 1 0).dailyScores
          ≠ staleStateAfter.dailyScores
      ∧ recordCompletionF false staleState 1 1 0 1
          = Except.ok (calculateDailyScore staleStateAfter 1 0) := by
  refine ⟨?_, ?_, ?_, ?_⟩
  · norm_num [recordCompletionF, taskLookup, calculateDailyScoreF, upsertBy,
      earnedPointsCalc, completionKey, staleState, staleStateAfter]
  · norm_num [staleState, staleStateAfter]
  · norm_num [calculateDailyScore, upsertBy, scoreKey, staleState,
      staleStateAfter]
  · norm_num [recordCompletionF, taskLookup, calculateDailyScoreF,
    calculateDailyScore, upsertBy, earnedPointsCalc, completionKey, scoreKey,
    staleState, staleStateAfter]

@[simp] theorem applyChallenge_dailyScores (s : St) (c : Challenge) :
    (applyChallenge s c).dailyScores = s.dailyScores := by
  unfold applyChallenge
  rcases hw : challengeWinner s c with _ | wid <;> rfl

theorem applyChallenge_challenges (s : St) (c : Challenge) :
    (applyChallenge s c).challenges = s.challenges.map (fun x =>
      if x.id == c.id then
        { x with status := Status.completed, winnerId := challengeWinner s c }
      else x) := by
  unfold applyChallenge
  rcases hw : challengeWinner s c with _ | wid <;> rfl

theorem applyChallenge_profiles_none (s : St) (c : Challenge)
    (h : challengeWinner s c = none) :
    (applyChallenge s c).profiles = s.profiles := by
  unfold applyChallenge
  rw [h]

theorem applyChallenge_profiles_some (s : St) (c : Challenge) (wid : Nat)
    (h : challengeWinner s c = some wid) :
    (applyChallenge s c).profiles
      = incrementLosses (incrementWins s.profiles wid)
          (if wid == c.creatorId then c.challengerId else c.creatorId) := by
  unfold applyChallenge
  rw [h]

theorem challengeWinner_congr {s1 s2 : St}
    (h : s1.dailyScores = s2.dailyScores) (c : Challenge) :
    challengeWinner s1 c = challengeWinner s2 c := by
  unfold challengeWinner scoresInRange
  rw [h]

theorem foldl_applyChallenge_dailyScores (l : List Challenge) (s : St) :
    (l.foldl applyChallenge s).dailyScores = s.dailyScores := by
  induction l generalizing s with
  | nil => rfl
  | cons c l ih => rw [List.foldl_cons, ih, applyChallenge_dailyScores]

/-- Number of challenges in a list won by the given user, with winners read
from the daily scores of a base state. -/
def wonIn (s0 : St) (l : List Challenge) (u : Nat) : Nat :=
  (l.filter (fun c => challengeWinner s0 c == some u)).length

/-- Number of challenges in a list lost by the given user: the loser is the
participant other than the winner, and drawn challenges have no loser. -/
def lostIn (s0 : St) (l : List Challenge) (u : Nat) : Nat :=
  (l.filter (fun c => match challengeWinner s0 c with
    | none => false
    | some w =>
        (if w == c.creatorId then c.challengerId else c.creatorId) == u)).length

theorem wonIn_nil (s0 : St) (u : Nat) : wonIn s0 [] u = 0 := rfl

theorem lostIn_nil (s0 : St) (u : Nat) : lostIn s0 [] u = 0 := rfl

theorem wonIn_cons_none (s0 : St) (c : Challenge) (l : List Challenge)
    (u : Nat) (hwin : challengeWinner s0 c = none) :
    wonIn s0 (c :: l) u = wonIn s0 l u := by
  unfold wonIn
  rw [List.filter_cons, if_neg (by simp [hwin])]

theorem lostIn_cons_none (s0 : St) (c : Challenge) (l : List Challenge)
    (u : Nat) (hwin : challengeWinner s0 c = none) :
    lostIn s0 (c :: l) u = lostIn s0 l u := by
  unfold lostIn
  rw [List.filter_cons, if_neg (by simp [hwin])]

theorem wonIn_cons_some (s0 : St) (c : Challenge) (l : List Challenge)
    (wid u : Nat) (hwin : challengeWinner s0 c = some wid) :
    wonIn s0 (c :: l) u = (if wid = u then 1 else 0) + wonIn s0 l u := by
  unfold wonIn
  rw [List.filter_cons]
  by_cases h : wid = u
  · rw [if_pos (by simp [hwin, h]), if_pos h, List.length_cons, Nat.add_comm]
  · rw [if_neg (by simp [hwin, h]), if_neg h, Nat.zero_add]

theorem lostIn_cons_some (s0 : St) (c : Challenge) (l : List Challenge)
    (wid u : Nat) (hwin : challengeWinner s0 c = some wid) :
    lostIn s0 (c :: l) u
      = (if (if wid = c.creatorId then c.challengerId else c.creatorId) = u
         then 1 else 0) + lostIn s0 l u := by
  unfold lostIn
  rw [List.filter_cons]
  by_cases h : (if wid = c.creatorId then c.challengerId else c.creatorId) = u
  · rw [if_pos ?side, if_pos h, List.length_cons, Nat.add_comm]
    case side =>
      rw [hwin]
      simp only [beq_iff_eq]
      simpa using h
  · rw [if_neg ?side, if_neg h, Nat.zero_add]
    case side =>
      rw [hwin]
      simp only [beq_iff_eq]
      simpa using h

theorem foldl_applyChallenge_profiles (s0 : St) :
    ∀ (l : List Challenge) (s : St), s.dailyScores = s0.dailyScores →
      (l.foldl applyChallenge s).profiles
        = s.profiles.map (fun p =>
            { p with totalWins := p.totalWins + wonIn s0 l p.id,
                     totalLosses := p.totalLosses + lostIn s0 l p.id }) := by
  intro l
  induction l with
  | nil =>
    intro s hs
    have hid : (fun p : Profile =>
        ({ p with totalWins := p.totalWins + wonIn s0 [] p.id,
                  totalLosses := p.totalLosses + lostIn s0 [] p.id } : Profile))
        = fun p => p := by
      funext p
      cases p
      simp [wonIn_nil, lostIn_nil]
    rw [List.foldl_nil, hid]
    simp
  | cons c l ih =>
    intro s hs
    rw [List.foldl_cons,
      ih (applyChallenge s c) (by rw [applyChallenge_dailyScores, hs])]
    have hw := challengeWinner_congr hs c
    rcases hwin : challengeWinner s0 c with _ | wid
    · rw [applyChallenge_profiles_none s c (hw.trans hwin)]
      apply List.map_congr_left
      intro p _
      rw [wonIn_cons_none s0 c l p.id hwin, lostIn_cons_none s0 c l p.id hwin]
    · rw [applyChallenge_profiles_some s c wid (hw.trans hwin)]
      unfold incrementWins incrementLosses
      rw [List.map_map, List.map_map]
      apply List.map_congr_left
      intro p _
      obtain ⟨pid, pw, pl⟩ := p
      simp only [Function.comp_apply, beq_iff_eq,
        wonIn_cons_some s0 c l wid _ hwin, lostIn_cons_some s0 c l wid _ hwin]
      by_cases hpw : pid = wid
      · by_cases hpl :
            pid = (if wid = c.creatorId then c.challengerId else c.creatorId)
        · rw [if_pos hpw]
          simp only
          rw [if_pos hpl, if_pos hpw.symm, if_pos hpl.symm]
          simp only [Profile.mk.injEq, true_and]
          constructor <;> omega
        · rw [if_pos hpw]
          simp only
          rw [if_neg hpl, if_pos hpw.symm, if_neg (fun hh => hpl hh.symm)]
          simp only [Profile.mk.injEq, true_and]
          constructor <;> omega
      · by_cases hpl :
            pid = (if wid = c.creatorId then c.challengerId else c.creatorId)
        · rw [if_neg hpw]
          simp only
          rw [if_pos hpl, if_neg (fun hh => hpw hh.symm), if_pos hpl.symm]
          simp only [Profile.mk.injEq, true_and]
          constructor <;> omega
        · rw [if_neg hpw]
          simp only
          rw [if_neg hpl, if_neg (fun hh => hpw hh.symm),
            if_neg (fun hh => hpl hh.symm)]
          simp only [Profile.mk.injEq, true_and]
          constructor <;> omega

theorem foldl_applyChallenge_no_active (today : Nat) :
    ∀ (l : List Challenge) (s : St),
      (∀ c ∈ s.challenges, c.status = Status.active → c.endDate ≤ today →
        c.id ∈ l.map Challenge.id) →
      expiredActive (l.foldl applyChallenge s) today = [] := by
  intro l
  induction l with
  | nil =>
    intro s hs
    rw [List.foldl_nil]
    unfold expiredActive
    rw [List.filter_eq_nil_iff]
    intro c hc
    simp only [Bool.and_eq_true, beq_iff_eq, decide_eq_true_eq, not_and]
    intro hact hexp
    exact absurd (hs c hc hact hexp) (by simp)
  | cons c0 l ih =>
    intro s hs
    rw [List.foldl_cons]
    apply ih
    intro c hc hact hexp
    rw [applyChallenge_challenges] at hc
    obtain ⟨x, hx, hxc⟩ := List.mem_map.mp hc
    by_cases hid : (x.id == c0.id) = true
    · exfalso
      rw [if_pos hid] at hxc
      rw [← hxc] at hact
      simp at hact
    · rw [if_neg hid] at hxc
      subst hxc
      have hmem := hs x hx hact hexp
      simp only [List.map_cons, List.mem_cons] at hmem
      rcases hmem with h1 | h1
      · exact absurd (by simp [h1]) hid
      · exact h1

/-- C4: running the sweep twice in immediate succession is the same as
running it once, and the resulting win and loss counters are those of the
initial state incremented by exactly the number of expired active challenges
the user won, respectively lost, in that initial state. -/
theorem sweep_twice_counts (s : St) (today : Nat) :
    sweep (sweep s today) today = sweep s today
      ∧ (sweep (sweep s today) today).profiles
        = s.profiles.map (fun p =>
            { p with
                totalWins := p.totalWins + wonIn s (expiredActive s today) p.id,
                totalLosses :=
                  p.totalLosses + lostIn s (expiredActive s today) p.id }) := by
  have hsweep : ∀ s2 : St, sweep s2 today
      = (expiredActive s2 today).foldl applyChallenge s2 := fun _ => rfl
  have hidem : sweep (sweep s today) today = sweep s today := by
    have hnil : expiredActive (sweep s today) today = [] := by
      rw [hsweep s]
      apply foldl_applyChallenge_no_active today (expiredActive s today) s
      intro c hc hact hexp
      apply List.mem_map_of_mem
      unfold expiredActive
      exact List.mem_filter.mpr ⟨hc, by simp [hact, hexp]⟩
    rw [hsweep (sweep s today), hnil, List.foldl_nil]
  refine ⟨hidem, ?_⟩
  rw [hidem]
  unfold sweep
  exact foldl_applyChallenge_profiles s (expiredActive s today) s rfl

theorem filter_map_comm {α : Type} (g : α → α) (q : α → Bool)
    (hg : ∀ x, q (g x) = q x) :
    ∀ L : List α, (L.map g).filter q = (L.filter q).map g := by
  intro L
  induction L with
  | nil => simp
  | cons x xs ih =>
    rw [List.map_cons, List.filter_cons, List.filter_cons, hg x]
    cases hq : q x <;> simp [hq, ih]

theorem filter_eq_singleton_unique {α : Type} (q : α → Bool) (a : α) :
    ∀ L : List α, L.filter q = [a] → ∀ x ∈ L, q x = true → x = a := by
  intro L
  induction L with
  | nil =>
    intro _ x hx
    exact absurd hx (by simp)
  | cons y ys ih =>
    intro h x hx hqx
    rw [List.filter_cons] at h
    by_cases hqy : q y = true
    · rw [if_pos hqy] at h
      simp only [List.cons.injEq] at h
      obtain ⟨hy, hnil⟩ := h
      rcases List.mem_cons.mp hx with h1 | h1
      · rw [h1, hy]
      · exfalso
        have hm : x ∈ ys.filter q := List.mem_filter.mpr ⟨h1, hqx⟩
        rw [hnil] at hm
        exact absurd hm (by simp)
    · rw [if_neg hqy] at h
      rcases List.mem_cons.mp hx with h1 | h1
      · exact absurd (h1 ▸ hqx) hqy
      · exact ih h x h1 hqx

theorem mem_of_filter_eq_singleton {α : Type} {q : α → Bool} {a : α}
    {L : List α} (h : L.filter q = [a]) : a ∈ L := by
  have hm : a ∈ L.filter q := by
    rw [h]
    exact List.mem_cons_self a []
  exact List.mem_of_mem_filter hm

/-- The row a challenge becomes once the sweep resolves it: status completed
and the computed winner recorded. -/
def resolvedAs (s0 : St) (c : Challenge) : Challenge :=
  { c with status := Status.completed, winnerId := challengeWinner s0 c }

theorem foldl_applyChallenge_row (s0 : St) (c : Challenge) :
    ∀ (l : List Challenge) (s : St), s.dailyScores = s0.dailyScores →
      (∀ x ∈ l, x.id = c.id → x = c) →
      ((s.challenges.filter (fun x => x.id == c.id) = [resolvedAs s0 c] →
        (l.foldl applyChallenge s).challenges.filter (fun x => x.id == c.id)
          = [resolvedAs s0 c])
      ∧ (s.challenges.filter (fun x => x.id == c.id) = [c] → c ∈ l →
        (l.foldl applyChallenge s).challenges.filter (fun x => x.id == c.id)
          = [resolvedAs s0 c])) := by
  intro l
  induction l with
  | nil =>
    intro s _ _
    exact ⟨fun h => by rw [List.foldl_nil]; exact h,
      fun _ hc => absurd hc (by simp)⟩
  | cons c0 l ih =>
    intro s hds hl
    have hdsA : (applyChallenge s c0).dailyScores = s0.dailyScores := by
      rw [applyChallenge_dailyScores, hds]
    have hlA : ∀ x ∈ l, x.id = c.id → x = c :=
      fun x hx => hl x (List.mem_cons_of_mem _ hx)
    have hwc0 : challengeWinner s c0 = challengeWinner s0 c0 :=
      challengeWinner_congr hds c0
    have hgid : ∀ x : Challenge,
        (if x.id == c0.id then
          { x with status := Status.completed,
                   winnerId := challengeWinner s c0 }
         else x).id = x.id := by
      intro x
      by_cases hx : (x.id == c0.id) = true
      · rw [if_pos hx]
      · rw [if_neg hx]
    have hfm : ((applyChallenge s c0).challenges).filter
          (fun x => x.id == c.id)
        = ((s.challenges.filter (fun x => x.id == c.id)).map
            (fun x => if x.id == c0.id then
              { x with status := Status.completed,
                       winnerId := challengeWinner s c0 }
             else x)) := by
      rw [applyChallenge_challenges]
      exact filter_map_comm _ _ (fun x => by rw [hgid x]) s.challenges
    rw [List.foldl_cons]
    by_cases hcc : (c0.id == c.id) = true
    · have hc0c : c0 = c := hl c0 (List.mem_cons_self c0 l) (by simpa using hcc)
      have hwcc : challengeWinner s c0 = challengeWinner s0 c := by
        rw [hwc0, hc0c]
      constructor
      · intro hdone
        apply (ih (applyChallenge s c0) hdsA hlA).1
        rw [hfm, hdone, List.map_cons, List.map_nil,
          if_pos (by simp [hc0c, resolvedAs]), hwcc]
        rfl
      · intro hone _
        apply (ih (applyChallenge s c0) hdsA hlA).1
        rw [hfm, hone, List.map_cons, List.map_nil,
          if_pos (by simp [hc0c]), hwcc]
        rfl
    · have hfix : ((s.challenges.filter (fun x => x.id == c.id)).map
            (fun x => if x.id == c0.id then
              { x with status := Status.completed,
                       winnerId := challengeWinner s c0 }
             else x))
          = s.challenges.filter (fun x => x.id == c.id) := by
        have hstep : ∀ x ∈ s.challenges.filter (fun x => x.id == c.id),
            (if x.id == c0.id then
              { x with status := Status.completed,
                       winnerId := challengeWinner s c0 }
             else x) = x := by
          intro x hx
          have hxid : x.id = c.id := by
            simpa using (List.mem_filter.mp hx).2
          rw [if_neg]
          simp only [beq_iff_eq, hxid]
          intro hh
          exact hcc (by simp [hh])
        simpa using List.map_congr_left hstep
      constructor
      · intro hdone
        apply (ih (applyChallenge s c0) hdsA hlA).1
        rw [hfm, hfix]
        exact hdone
      · intro hone hc
        have hcl : c ∈ l := by
          rcases List.mem_cons.mp hc with h1 | h1
          · exact absurd (by simp [h1]) hcc
          · exact h1
        apply (ih (applyChallenge s c0) hdsA hlA).2 _ hcl
        rw [hfm, hfix]
        exact hone

theorem avgScore_eq_meanOrZero (l : List ℚ) :
    avgScore l = if l.length = 0 then 0 else l.sum / (l.length : ℚ) := by
  unfold avgScore
  by_cases h : l.length = 0
  · rw [if_neg (by omega), if_pos h]
  · rw [if_pos (by omega), if_neg h]

/-- Winner as the specification describes it: each side is the arithmetic
mean of the existing daily percentage score rows of that user over the
inclusive challenge window, defaulting to 0 for a user with no rows in
range; a strictly greater mean wins and equal means give a tie. -/
def winnerBySpec (s : St) (c : Challenge) : Option Nat :=
  let creatorRows := scoresInRange s c.creatorId c.startDate c.endDate
  let challengerRows := scoresInRange s c.challengerId c.startDate c.endDate
  let creatorMean : ℚ :=
    if creatorRows.length = 0 then 0
    else creatorRows.sum / (creatorRows.length : ℚ)
  let challengerMean : ℚ :=
    if challengerRows.length = 0 then 0
    else challengerRows.sum / (challengerRows.length : ℚ)
  if creatorMean > challengerMean then some c.creatorId
  else if challengerMean > creatorMean then some c.challengerId
  else none

theorem challengeWinner_eq_winnerBySpec (s : St) (c : Challenge) :
    challengeWinner s c = winnerBySpec s c := by
  unfold challengeWinner winnerBySpec
  rw [avgScore_eq_meanOrZero, avgScore_eq_meanOrZero]

/-- C3: the sweep resolves every expired active challenge to completed, with
the winner decided by comparing the arithmetic means of the daily percentage
scores of the two participants over the inclusive window, a missing history
counting as mean 0, ties leaving the winner null. -/
theorem sweep_assigns_winner (s : St) (today : Nat) (c : Challenge)
    (huniq : s.challenges.filter (fun x => x.id == c.id) = [c])
    (hact : c.status = Status.active) (hexp : c.endDate ≤ today) :
    (sweep s today).challenges.filter (fun x => x.id == c.id)
      = [{ c with status := Status.completed, winnerId := winnerBySpec s c }]
    := by
  have hmem : c ∈ s.challenges := mem_of_filter_eq_singleton huniq
  have hexpmem : c ∈ expiredActive s today := by
    unfold expiredActive
    exact List.mem_filter.mpr ⟨hmem, by simp [hact, hexp]⟩
  have hl : ∀ x ∈ expiredActive s today, x.id = c.id → x = c := by
    intro x hx hxid
    exact filter_eq_singleton_unique _ c s.challenges huniq x
      (List.mem_of_mem_filter hx) (by simp [hxid])
  have hrow : (sweep s today).challenges.filter (fun x => x.id == c.id)
      = [resolvedAs s c] :=
    (foldl_applyChallenge_row s c (expiredActive s today) s rfl hl).2
      huniq hexpmem
  rw [hrow]
  simp only [resolvedAs, challengeWinner_eq_winnerBySpec]

/-- The challenge of the spec example for C3: window days 1 to 3, creator 1
versus challenger 2, still active. -/
def exampleChallenge : Challenge := ⟨7, 1, 2, 1, 3, Status.active, none⟩

/-- State for the C3 example: the creator scored 100, 50 and 0 on the three
days; the challenger has no daily score rows at all. -/
def exampleChallengeState : St :=
  ⟨[], [], [⟨1, 1, 0, 0, 100⟩, ⟨1, 2, 0, 0, 50⟩, ⟨1, 3, 0, 0, 0⟩],
    [exampleChallenge], [⟨1, 0, 0⟩, ⟨2, 0, 0⟩]⟩

/-- Witness for C3 at the spec example: creator mean 50 beats the absent
challenger history (mean 0), so the creator wins. -/
theorem sweep_assigns_winner_witness :
    (sweep exampleChallengeState 3).challenges.filter
        (fun x => x.id == exampleChallenge.id)
      = [⟨7, 1, 2, 1, 3, Status.completed, some 1⟩] := by
  have h := sweep_assigns_winner exampleChallengeState 3 exampleChallenge
    (by decide) (by decide) (by decide)
  rw [h]
  norm_num [winnerBySpec, scoresInRange, exampleChallenge,
    exampleChallengeState]

/-- Two active tasks of user 1, each with a 1 hour target worth 10 points. -/
def twoTaskState : St :=
  ⟨[⟨1, 1, 1, 10, true⟩, ⟨2, 1, 1, 10, true⟩], [], [], [], []⟩

/-- After fully completing task 1 on day 0: 10 of 20 points, 50 percent. -/
def twoTaskState1 : St :=
  ⟨[⟨1, 1, 1, 10, true⟩, ⟨2, 1, 1, 10, true⟩], [⟨1, 1, 0, 1, 10⟩],
    [⟨1, 0, 20, 10, 50⟩], [], []⟩

/-- After also fully completing task 2: 20 of 20 points, 100 percent. -/
def twoTaskState2 : St :=
  ⟨[⟨1, 1, 1, 10, true⟩, ⟨2, 1, 1, 10, true⟩],
    [⟨1, 1, 0, 1, 10⟩, ⟨1, 2, 0, 1, 10⟩], [⟨1, 0, 20, 20, 100⟩], [], []⟩

/-- After deactivating task 2 and re-recording task 1: the recompute reads
10 possible points from the remaining active task but still sums 20 earned
points over all completions of the day, giving 200 percent. -/
def overCreditState : St :=
  ⟨[⟨1, 1, 1, 10, true⟩, ⟨2, 1, 1, 10, false⟩],
    [⟨1, 1, 0, 1, 10⟩, ⟨1, 2, 0, 1, 10⟩], [⟨1, 0, 10, 20, 200⟩], [], []⟩

/-- C2 (refuted by the code): a reachable state whose daily score is 200
percent.  Complete both tasks, deactivate one, then trigger a recompute by
re-recording the other: totalPossiblePoints is read live from active tasks
while earnedPoints sums all completions of the date, so the stored
percentage exceeds 100. -/
theorem dailyScore_percentage_exceeds_100 :
    recordCompletion twoTaskState 1 1 0 1 = Except.ok twoTaskState1
      ∧ recordCompletion twoTaskState1 1 2 0 1 = Except.ok twoTaskState2
      ∧ recordCompletion (deactivateTask twoTaskState2 1 2) 1 1 0 1
          = Except.ok overCreditState
      ∧ overCreditState.dailyScores = [⟨1, 0, 10, 20, 200⟩]
      ∧ ¬ ((200 : ℚ) ≤ 100) := by
  refine ⟨?_, ?_, ?_, ?_, ?_⟩ <;>
    norm_num [recordCompletion, taskLookup, calculateDailyScore,
      deactivateTask, upsertBy, earnedPointsCalc, completionKey, scoreKey,
      twoTaskState, twoTaskState1, twoTaskState2, overCreditState]

/-- Leap year rule of the proleptic Gregorian calendar used by JS Date. -/
def isLeapYear (y : Nat) : Bool :=
  (y % 4 == 0 && y % 100 != 0) || y % 400 == 0

/-- Days in month m (0-based, January = 0) of year y. -/
def daysInMonth (y m : Nat) : Nat :=
  if m == 1 then (if isLeapYear y then 29 else 28)
  else if m == 3 || m == 5 || m == 8 || m == 10 then 30
  else 31

theorem daysInMonth_ge (y m : Nat) : 28 ≤ daysInMonth y m := by
  unfold daysInMonth
  split_ifs <;> omega

theorem daysInMonth_le (y m : Nat) : daysInMonth y m ≤ 31 := by
  unfold daysInMonth
  split_ifs <;> omega

/-- A calendar date as JS Date components: full year, 0-based month, 1-based
day of month. -/
structure Date where
  year : Nat
  month : Nat
  day : Nat
deriving DecidableEq, Repr

/-- Day normalization of ECMAScript MakeDay: a day count that overflows the
month is carried into the following months.  The fuel argument makes the
recursion structural; initial fuel n suffices because every carry removes at
least 28 days. -/
def normDaysAux : Nat → Nat → Nat → Nat → Date
  | 0, y, m, n => ⟨y, m, n⟩
  | fuel + 1, y, m, n =>
    if n ≤ daysInMonth y m then ⟨y, m, n⟩
    else if m == 11 then normDaysAux fuel (y + 1) 0 (n - 31)
    else normDaysAux fuel y (m + 1) (n - daysInMonth y m)

/-- Normalize a (year, month, day count) triple to a calendar date. -/
def normDays (y m n : Nat) : Date := normDaysAux n y m n

/-- The duration units accepted by POST / of the challenges route. -/
inductive DurationType where
  | day
  | week
  | month
  | year
deriving DecidableEq, Repr

/-- End-date computation of POST / in server/routes/challenges.js lines
51-68, under ECMAScript Date semantics: setDate adds to the day component,
setMonth and setFullYear replace the month or year and renormalize an
out-of-range day by carrying it into the next month (MakeDay), never by
clamping. -/
def calcEndDate (start : Date) (ty : DurationType) (count : Nat) : Date :=
  match ty with
  | DurationType.day => normDays start.year start.month (start.day + count)
  | DurationType.week =>
      normDays start.year start.month (start.day + count * 7)
  | DurationType.month =>
      normDays (start.year + (start.month + count) / 12)
        ((start.month + count) % 12) start.day
  | DurationType.year => normDays (start.year + count) start.month start.day

/-- End-date computation as the specification words it: month and year
addition preserve the day-of-month, clamping at the end of the target
month. -/
def calcEndDateSpec (start : Date) (ty : DurationType) (count : Nat) :
    Date :=
  match ty with
  | DurationType.day => normDays start.year start.month (start.day + count)
  | DurationType.week =>
      normDays start.year start.month (start.day + count * 7)
  | DurationType.month =>
      let m := (start.month + count) % 12
      let y := start.year + (start.month + count) / 12
      ⟨y, m, min start.day (daysInMonth y m)⟩
  | DurationType.year =>
      ⟨start.year + count, start.month,
        min start.day (daysInMonth (start.year + count) start.month)⟩

/-- Counterexample for C8: one month from 2025-01-31 lands on 2025-03-03
under the setMonth overflow semantics of the code, not on the clamped
2025-02-28 the spec describes. -/
theorem calcEndDate_month_overflow_cex :
    calcEndDate ⟨2025, 0, 31⟩ DurationType.month 1 = ⟨2025, 2, 3⟩
      ∧ calcEndDateSpec ⟨2025, 0, 31⟩ DurationType.month 1 = ⟨2025, 1, 28⟩
      ∧ (⟨2025, 2, 3⟩ : Date) ≠ ⟨2025, 1, 28⟩ :=
  ⟨by decide, by decide, by decide⟩

/-- Successor function on calendar dates. -/
def nextDay (d : Date) : Date :=
  if d.day < daysInMonth d.year d.month then ⟨d.year, d.month, d.day + 1⟩
  else if d.month == 11 then ⟨d.year + 1, 0, 1⟩
  else ⟨d.year, d.month + 1, 1⟩

/-- A well-formed day-of-month for its year and month. -/
def Date.valid (d : Date) : Prop :=
  1 ≤ d.day ∧ d.day ≤ daysInMonth d.year d.month

instance (d : Date) : Decidable d.valid := by
  unfold Date.valid
  infer_instance

theorem nextDay_in_month {y m d : Nat} (h : d < daysInMonth y m) :
    nextDay ⟨y, m, d⟩ = ⟨y, m, d + 1⟩ := by
  unfold nextDay
  dsimp only
  rw [if_pos h]

theorem nextDay_month_end_dec {y m d : Nat} (h : ¬ d < daysInMonth y m)
    (hm : (m == 11) = true) : nextDay ⟨y, m, d⟩ = ⟨y + 1, 0, 1⟩ := by
  unfold nextDay
  dsimp only
  rw [if_neg h, if_pos hm]

theorem nextDay_month_end {y m d : Nat} (h : ¬ d < daysInMonth y m)
    (hm : ¬ (m == 11) = true) : nextDay ⟨y, m, d⟩ = ⟨y, m + 1, 1⟩ := by
  unfold nextDay
  dsimp only
  rw [if_neg h, if_neg hm]

theorem normDaysAux_iterate :
    ∀ (k fuel y m d : Nat), 1 ≤ d → d ≤ daysInMonth y m → d + k ≤ fuel →
      normDaysAux fuel y m (d + k) = nextDay^[k] ⟨y, m, d⟩ := by
  intro k
  induction k with
  | zero =>
    intro fuel y m d h1 h2 hf
    cases fuel with
    | zero => omega
    | succ f =>
      simp only [Nat.add_zero]
      simp only [normDaysAux]
      rw [if_pos h2]
      simp
  | succ k ih =>
    intro fuel y m d h1 h2 hf
    by_cases hd : d < daysInMonth y m
    · have hre : d + (k + 1) = (d + 1) + k := by omega
      rw [hre, ih fuel y m (d + 1) (by omega) hd (by omega),
        Function.iterate_succ_apply, nextDay_in_month hd]
    · have hdeq : d = daysInMonth y m := by omega
      cases fuel with
      | zero => omega
      | succ f =>
        simp only [normDaysAux]
        rw [if_neg (by omega)]
        by_cases hm : (m == 11) = true
        · rw [if_pos hm]
          have hm11 : m = 11 := by simpa using hm
          have hdim : daysInMonth y m = 31 := by rw [hm11]; rfl
          have hre : d + (k + 1) - 31 = 1 + k := by omega
          rw [hre, ih f (y + 1) 0 1 (by omega)
            (by have := daysInMonth_ge (y + 1) 0; omega) (by omega),
            Function.iterate_succ_apply, nextDay_month_end_dec hd hm]
        · rw [if_neg hm]
          have hge := daysInMonth_ge y m
          have hre : d + (k + 1) - daysInMonth y m = 1 + k := by omega
          rw [hre, ih f y (m + 1) 1 (by omega)
            (by have := daysInMonth_ge y (m + 1); omega) (by omega),
            Function.iterate_succ_apply, nextDay_month_end hd hm]

theorem normDays_of_le (y m d : Nat) (h : d ≤ daysInMonth y m) :
    normDays y m d = ⟨y, m, d⟩ := by
  unfold normDays
  cases d with
  | zero => rfl
  | succ dd =>
    simp only [normDaysAux]
    rw [if_pos h]

theorem normDays_overflow (y m d : Nat) (hm : (m == 11) = false)
    (h1 : daysInMonth y m < d)
    (h2 : d - daysInMonth y m ≤ daysInMonth y (m + 1)) :
    normDays y m d = ⟨y, m + 1, d - daysInMonth y m⟩ := by
  have hge := daysInMonth_ge y m
  unfold normDays
  cases d with
  | zero => omega
  | succ dd =>
    simp only [normDaysAux]
    rw [if_neg (by omega), if_neg (by simp [hm])]
    cases hdd : dd with
    | zero => omega
    | succ ddd =>
      subst hdd
      simp only [normDaysAux]
      rw [if_pos (by omega)]

/-- C8 as the code behaves (amended): day and week add the stated number of
days; month and year replace the month or year field, preserving the
day-of-month when it exists in the target month and otherwise carrying the
excess days into the following month instead of clamping; in particular one
month from 2025-01-31 is 2025-03-03. -/
theorem calcEndDate_characterization :
    (∀ (start : Date) (count : Nat), start.valid →
        calcEndDate start DurationType.day count = nextDay^[count] start)
      ∧ (∀ (start : Date) (count : Nat), start.valid →
          calcEndDate start DurationType.week count
            = nextDay^[count * 7] start)
      ∧ (∀ (start : Date) (count : Nat), start.valid →
          (start.day ≤ daysInMonth (start.year + (start.month + count) / 12)
              ((start.month + count) % 12) →
            calcEndDate start DurationType.month count
              = ⟨start.year + (start.month + count) / 12,
                  (start.month + count) % 12, start.day⟩)
          ∧ (daysInMonth (start.year + (start.month + count) / 12)
              ((start.month + count) % 12) < start.day →
            calcEndDate start DurationType.month count
              = ⟨start.year + (start.month + count) / 12,
                  (start.month + count) % 12 + 1,
                  start.day - daysInMonth
                    (start.year + (start.month + count) / 12)
                    ((start.month + count) % 12)⟩))
      ∧ (∀ (start : Date) (count : Nat), start.valid →
          (start.day ≤ daysInMonth (start.year + count) start.month →
            calcEndDate start DurationType.year count
              = ⟨start.year + count, start.month, start.day⟩)
          ∧ (daysInMonth (start.year + count) start.month < start.day →
            calcEndDate start DurationType.year count
              = ⟨start.year + count, start.month + 1,
                  start.day - daysInMonth (start.year + count) start.month⟩))
      ∧ calcEndDate ⟨2025, 0, 31⟩ DurationType.month 1 = ⟨2025, 2, 3⟩ := by
  refine ⟨?_, ?_, ?_, ?_, by decide⟩
  · intro start count hv
    have hv2 : 1 ≤ start.day
        ∧ start.day ≤ daysInMonth start.year start.month := hv
    exact normDaysAux_iterate count (start.day + count) start.year start.month
      start.day hv2.1 hv2.2 (by omega)
  · intro start count hv
    have hv2 : 1 ≤ start.day
        ∧ start.day ≤ daysInMonth start.year start.month := hv
    exact normDaysAux_iterate (count * 7) (start.day + count * 7) start.year
      start.month start.day hv2.1 hv2.2 (by omega)
  · intro start count hv
    have hv2 : 1 ≤ start.day
        ∧ start.day ≤ daysInMonth start.year start.month := hv
    constructor
    · intro hle
      exact normDays_of_le _ _ _ hle
    · intro hlt
      apply normDays_overflow
      · by_cases hq : (start.month + count) % 12 = 11
        · exfalso
          have hd31 : daysInMonth (start.year + (start.month + count) / 12)
              ((start.month + count) % 12) = 31 := by
            rw [hq]
            rfl
          have := daysInMonth_le start.year start.month
          omega
        · simpa using hq
      · exact hlt
      · have ha := daysInMonth_le start.year start.month
        have hb := daysInMonth_ge (start.year + (start.month + count) / 12)
          ((start.month + count) % 12 + 1)
        have hc := daysInMonth_ge (start.year + (start.month + count) / 12)
          ((start.month + count) % 12)
        omega
  · intro start count hv
    have hv2 : 1 ≤ start.day
        ∧ start.day ≤ daysInMonth start.year start.month := hv
    constructor
    · intro hle
      exact normDays_of_le _ _ _ hle
    · intro hlt
      apply normDays_overflow
      · by_cases hq : start.month = 11
        · exfalso
          have hda : daysInMonth (start.year + count) start.month = 31 := by
            rw [hq]
            rfl
          have hdb : daysInMonth start.year start.month = 31 := by
            rw [hq]
            rfl
          omega
        · simpa using hq
      · exact hlt
      · have ha := daysInMonth_le start.year start.month
        have hb := daysInMonth_ge (start.year + count) (start.month + 1)
        have hc := daysInMonth_ge (start.year + count) start.month
        omega

/-- Witness for C8: three day-steps from 2025-06-10 (month index 5). -/
theorem calcEndDate_characterization_witness :
    Date.valid ⟨2025, 5, 10⟩
      ∧ calcEndDate ⟨2025, 5, 10⟩ DurationType.day 3
          = nextDay^[3] ⟨2025, 5, 10⟩ :=
  ⟨by decide, calcEndDate_characterization.1 ⟨2025, 5, 10⟩ 3 (by decide)⟩

end LifeImprover
